import Mathlib

/-!
Verification of the protocol engine of the `pycaen` CAEN 1471 high-voltage
module driver (`src/pycaen/_caen1471.py`).

The development embeds the command encoder, the reply decoder, the busy-flag
access serializer, the channel-status / alarm-status decoding and the facade
operations the claims refer to.  Python strings are embedded as `List Char`,
Python integers as `Nat`/`Int`, Python floats as exact rationals `ℚ`, and
raised exceptions as `Except` errors.
-/

/-- Errors raised by the driver: its own exception classes
(`UnknownCommandError`, `ChannelError`, `ParameterError`, `InvalidReplyError`)
plus the Python built-ins it raises (`ValueError`, `PermissionError`,
`ConnectionError`, `TimeoutError`, and `TypeError` from `int(None)`). -/
inductive PyError where
  | unknownCommand
  | channelError
  | parameterError
  | valueError
  | permissionError
  | invalidReply
  | connectionError
  | timeoutError
  | typeError
deriving DecidableEq

/-- Values a decoded reply can carry: the raw payload string, or the payload
converted by `int` / `float`. -/
inductive PyValue where
  | strV (s : List Char)
  | intV (i : ℤ)
  | floatV (q : ℚ)
deriving DecidableEq

/-- Expected-type descriptors passed as `type_` to `_parse_reply`
(the code passes the classes `float` and `int`). -/
inductive PyType where
  | floatT
  | intT
deriving DecidableEq

/-- Decimal digit to its character. -/
def digitToChar (d : Nat) : Char := Char.ofNat (48 + d)

/-- Character to decimal digit, when it is one. -/
def charToDigit (c : Char) : Option Nat :=
  if c.isDigit then some (c.toNat - 48) else Option.none

/-- Decimal digits of `n`, most significant first (`str(n)` of a non-negative
Python integer); fuel-based so that the recursion is structural. -/
def natToCharsGo : Nat → Nat → List Char
  | 0, _ => []
  | fuel + 1, n =>
    if n < 10 then [digitToChar n]
    else natToCharsGo fuel (n / 10) ++ [digitToChar (n % 10)]

/-- `str(n)` of a non-negative Python integer. -/
def natToChars (n : Nat) : List Char := natToCharsGo (n + 1) n

/-- `str(i)` of a Python integer. -/
def intToChars (i : ℤ) : List Char :=
  (if i < 0 then ['-'] else []) ++ natToChars i.natAbs

/-- Digit-run accumulator of `int(str)`: fails on any non-digit character. -/
def charsToNatAux : Nat → List Char → Option Nat
  | acc, [] => some acc
  | acc, c :: cs =>
    match charToDigit c with
    | some d => charsToNatAux (acc * 10 + d) cs
    | Option.none => Option.none

/-- Reads a non-empty run of decimal digits as a number. -/
def charsToNat (cs : List Char) : Option Nat :=
  match cs with
  | [] => Option.none
  | _ :: _ => charsToNatAux 0 cs

/-- ASCII whitespace stripped by Python's `str.strip` / `str.lstrip`. -/
def isPySpace (c : Char) : Bool :=
  c = ' ' || c = '\t' || c = '\n' || c = '\r' || c = '\x0b' || c = '\x0c'

/-- Python `str.lstrip()` (used on the reply before the success regex). -/
def pyLstrip (s : List Char) : List Char := s.dropWhile isPySpace

/-- Python `str.strip()` (performed internally by `int`/`float` on strings). -/
def pyStrip (s : List Char) : List Char :=
  ((s.dropWhile isPySpace).reverse.dropWhile isPySpace).reverse

/-- Sign-and-digits part of Python `int(str)`. -/
def pyIntCore : List Char → Option ℤ
  | '+' :: rest => (charsToNat rest).map (fun n => (n : ℤ))
  | '-' :: rest => (charsToNat rest).map (fun n => -(n : ℤ))
  | rest => (charsToNat rest).map (fun n => (n : ℤ))

/-- Python `int(str)` on the fragment of its grammar the device protocol
exercises: optional surrounding whitespace, an optional sign, then decimal
digits (underscore separators are not modelled). -/
def pyInt (s : List Char) : Option ℤ := pyIntCore (pyStrip s)

/-- Unsigned part of Python `float(str)`: digits with an optional fractional
part, at least one digit overall. -/
def pyFloatMag (s : List Char) : Option ℚ :=
  let ip := s.takeWhile Char.isDigit
  match s.drop ip.length with
  | [] =>
    match charsToNat ip with
    | some n => some ((n : ℚ))
    | Option.none => Option.none
  | '.' :: frac =>
    if frac.all Char.isDigit && (!ip.isEmpty || !frac.isEmpty) then
      match charsToNatAux 0 ip, charsToNatAux 0 frac with
      | some n, some f => some ((n : ℚ) + (f : ℚ) / ((10 : ℚ) ^ frac.length))
      | _, _ => Option.none
    else Option.none
  | _ => Option.none

/-- Sign handling of Python `float(str)`. -/
def pyFloatCore : List Char → Option ℚ
  | '+' :: rest => pyFloatMag rest
  | '-' :: rest => (pyFloatMag rest).map (fun q => -q)
  | rest => pyFloatMag rest

/-- Python `float(str)` on the decimal fragment of its grammar (exponents,
`inf` and `nan` are not modelled); the value is kept exactly as a rational. -/
def pyFloat (s : List Char) : Option ℚ := pyFloatCore (pyStrip s)

/-- Fractional decimal digits of `q ∈ [0,1)`, fuel-bounded (enough for the
exact short decimals the embedding produces). -/
def fracDigitsGo : Nat → ℚ → List Char
  | 0, _ => []
  | fuel + 1, q =>
    if q = 0 then []
    else digitToChar (Int.toNat ⌊q * 10⌋) :: fracDigitsGo fuel (q * 10 - ⌊q * 10⌋)

/-- Python `str` of a float, modelled for values that are exact short
decimals (the only float values the embedded driver produces). -/
def pyFloatRepr (q : ℚ) : List Char :=
  (if q < 0 then ['-'] else []) ++ natToChars (Int.toNat ⌊|q|⌋) ++
    ['.'] ++
    (let frac := fracDigitsGo 17 (|q| - ⌊|q|⌋)
     if frac.isEmpty then ['0'] else frac)

/-- Argument values handed to `_command` as `value=`; the f-string
`f",VAL:{value}"` inserts `str(value)`. -/
inductive PyScalar where
  | intv (i : ℤ)
  | floatv (q : ℚ)
  | strv (s : List Char)
deriving DecidableEq

/-- Python `str(value)` as used by the f-string building the command. -/
def pyScalarStr : PyScalar → List Char
  | .intv i => intToChars i
  | .floatv q => pyFloatRepr q
  | .strv s => s

/-- Tail of the `CMD:ERR` error regex after the board-id digits
(`re.match(r"#BD:[0-9]+,CMD:ERR\r\n$", reply)` in `Caen1471.__check_error`). -/
def errTailCMD : List Char := [',', 'C', 'M', 'D', ':', 'E', 'R', 'R', '\r', '\n']

/-- Tail of the `CH:ERR` error regex after the board-id digits. -/
def errTailCH : List Char := [',', 'C', 'H', ':', 'E', 'R', 'R', '\r', '\n']

/-- Tail of the `PAR:ERR` error regex after the board-id digits. -/
def errTailPAR : List Char := [',', 'P', 'A', 'R', ':', 'E', 'R', 'R', '\r', '\n']

/-- Tail of the `VAL:ERR` error regex after the board-id digits. -/
def errTailVAL : List Char := [',', 'V', 'A', 'L', ':', 'E', 'R', 'R', '\r', '\n']

/-- Tail of the `LOC:ERR` error regex after the board-id digits. -/
def errTailLOC : List Char := [',', 'L', 'O', 'C', ':', 'E', 'R', 'R', '\r', '\n']

/-- One error regex after the mandatory `#BD:` prefix: one or more digits,
then the given tail; Python's `$` anchor after the literal `\r\n` also
accepts one extra trailing newline. -/
def matchErrTail (tail : List Char) (rest : List Char) : Bool :=
  (!(rest.takeWhile Char.isDigit).isEmpty) &&
    ((rest.dropWhile Char.isDigit == tail) ||
      (rest.dropWhile Char.isDigit == tail ++ ['\n']))

/-- Literal `#BD:` prefix shared by all five error regexes. -/
def dropHashBD : List Char → Option (List Char)
  | '#' :: 'B' :: 'D' :: ':' :: rest => some rest
  | _ => Option.none

/-- Embedding of `Caen1471.__check_error`: the five error regexes are tried
on the raw (untrimmed) reply, in source order, and the first match raises
the corresponding error. -/
def checkErrorE (reply : List Char) : Option PyError :=
  match dropHashBD reply with
  | some rest =>
    if matchErrTail errTailCMD rest then some PyError.unknownCommand
    else if matchErrTail errTailCH rest then some PyError.channelError
    else if matchErrTail errTailPAR rest then some PyError.parameterError
    else if matchErrTail errTailVAL rest then some PyError.valueError
    else if matchErrTail errTailLOC rest then some PyError.permissionError
    else Option.none
  | Option.none => Option.none

/-- Greedy `(.*)\r\n` ending of the success regex: `.` does not match a
newline, so the payload group is everything before the first newline, which
must be immediately preceded by a carriage return. -/
def matchDotStar : List Char → Option (List Char)
  | '\r' :: '\n' :: _ => some []
  | '\n' :: _ => Option.none
  | c :: rest => (matchDotStar rest).map (fun p => c :: p)
  | [] => Option.none

/-- Embedding of the success regex
`#BD:([0-9]{2}),CMD:OK,VAL:(.*)\r\n` of `_parse_reply` (applied to the
lstripped reply); returns the `VAL` payload group. -/
def matchSuccess : List Char → Option (List Char)
  | '#' :: 'B' :: 'D' :: ':' :: d1 :: d2 :: ',' :: 'C' :: 'M' :: 'D' :: ':' :: 'O' :: 'K' :: ',' :: 'V' :: 'A' :: 'L' :: ':' :: rest =>
    if d1.isDigit && d2.isDigit then matchDotStar rest else Option.none
  | _ => Option.none

/-- Conversion of the payload group by the requested `type_` class; `none`
models the `ValueError` the conversion raises. -/
def pyTypeConvert (t : PyType) (payload : List Char) : Option PyValue :=
  match t with
  | .floatT => (pyFloat payload).map PyValue.floatV
  | .intT => (pyInt payload).map PyValue.intV

/-- Embedding of `Caen1471._parse_reply`: check the five error regexes on
the raw reply, then match the success regex on the lstripped reply; a
requested type converts the payload (its `ValueError` becomes
`InvalidReplyError`), no requested type returns the raw payload string, and
`None` results when neither pattern matches. -/
def parseReply (reply : List Char) (ty : Option PyType) :
    Except PyError (Option PyValue) :=
  match checkErrorE reply with
  | some e => Except.error e
  | Option.none =>
    match matchSuccess (pyLstrip reply) with
    | some payload =>
      match ty with
      | some t =>
        match pyTypeConvert t payload with
        | some v => Except.ok (some v)
        | Option.none => Except.error PyError.invalidReply
      | Option.none => Except.ok (some (PyValue.strV payload))
    | Option.none => Except.ok Option.none

/-- Embedding of the command-string construction in `Caen1471._command`:
`f"$BD:{module},CMD:{cmd}"`, then `f",CH:{channel}"` when a channel is
given, then `f",PAR:{par}"`, then `f",VAL:{value}"` when a value is given,
then `"\r\n"`.  Field contents arrive already `str`-converted. -/
def encodeCommand (module : Nat) (cmd : List Char) (channel : Option Nat)
    (par : List Char) (value : Option (List Char)) : List Char :=
  '$' :: 'B' :: 'D' :: ':' :: natToChars module ++
    ([','] ++ ('C' :: 'M' :: 'D' :: ':' :: cmd)) ++
    (match channel with
     | some ch => [','] ++ ('C' :: 'H' :: ':' :: natToChars ch)
     | Option.none => []) ++
    ([','] ++ ('P' :: 'A' :: 'R' :: ':' :: par)) ++
    (match value with
     | some v => [','] ++ (['V', 'A', 'L', ':'] ++ v)
     | Option.none => []) ++
    ['\r', '\n']

/-- Mutable state of a `Caen1471` object that `_command` touches: the
private busy flag and whether the serial connection is open. -/
structure CaenState where
  busy : Bool
  connOpen : Bool
deriving DecidableEq

deriving instance DecidableEq for Except

/-- Outcome of one `_command` call: the returned value or raised error, the
busy flag after the call, and the writes issued to the transport. -/
structure ExchangeOutcome where
  result : Except PyError (Option PyValue)
  busyAfter : Bool
  writes : List (List Char)
deriving DecidableEq

/-- Embedding of the busy-wait loop of `_command`
(`while self.__busy: if time() - start > 5: raise TimeoutError`).  `clock i`
is the value returned by the `i`-th call of `time()` inside the loop
(`clock 0` being `start`); the flag never changes while spinning, so the
loop either raises at the first poll past the budget or runs out of fuel. -/
def spinLoop (clock : Nat → ℚ) (start : ℚ) : Nat → Nat → Option Bool
  | _, 0 => Option.none
  | i, fuel + 1 =>
    if clock i - start > 5 then some false
    else spinLoop clock start (i + 1) fuel

/-- Acquisition step of `_command`: `some true` means the flag was free and
the exchange may proceed; `some false` means `TimeoutError` was raised;
`none` means the model ran out of fuel while spinning. -/
def spinWait (clock : Nat → ℚ) (busy : Bool) (fuel : Nat) : Option Bool :=
  if busy then spinLoop clock (clock 0) 1 fuel else some true

/-- Embedding of `Caen1471._command` for one exchange: busy-wait with the
5-second budget, set the busy flag, check the connection, build and write
the command string, parse the provided reply line, and clear the flag only
on the successful-return path (mirroring the source, which has no
`try`/`finally`). -/
def commandExchange (fuel : Nat) (clock : Nat → ℚ) (st : CaenState)
    (module : Nat) (cmd : List Char) (par : List Char) (channel : Option Nat)
    (value : Option PyScalar) (ty : Option PyType) (reply : List Char) :
    Option ExchangeOutcome :=
  match spinWait clock st.busy fuel with
  | Option.none => Option.none
  | some false => some ⟨Except.error PyError.timeoutError, st.busy, []⟩
  | some true =>
    if st.connOpen = false then
      some ⟨Except.error PyError.connectionError, true, []⟩
    else
      let line := encodeCommand module cmd channel par (value.map pyScalarStr)
      match parseReply reply ty with
      | Except.error e => some ⟨Except.error e, true, [line]⟩
      | Except.ok v => some ⟨Except.ok v, false, [line]⟩

/-- Embedding of the `Caen1471.ChannelStatus` enumeration, members in
declaration order. -/
inductive ChannelStatus where
  | OFF
  | ON
  | RAMPING_UP
  | RAMPING_DOWN
  | OVER_CURRENT
  | OVER_VOLTAGE
  | UNDER_VOLTAGE
  | MAX_VOLTAGE
  | TRIPPED
  | OVER_POWERED
  | OVER_TEMPERATURE
  | DISABLED
  | KILLED
  | INTERLOCKED
  | NO_CALIBRATION
deriving DecidableEq

/-- `value` attribute of each `ChannelStatus` member. -/
def statusValue : ChannelStatus → Nat
  | .OFF => 0
  | .ON => 1
  | .RAMPING_UP => 2
  | .RAMPING_DOWN => 3
  | .OVER_CURRENT => 4
  | .OVER_VOLTAGE => 5
  | .UNDER_VOLTAGE => 6
  | .MAX_VOLTAGE => 7
  | .TRIPPED => 8
  | .OVER_POWERED => 9
  | .OVER_TEMPERATURE => 10
  | .DISABLED => 11
  | .KILLED => 12
  | .INTERLOCKED => 13
  | .NO_CALIBRATION => 14

/-- Iteration order of the Python `ChannelStatus` enumeration
(declaration order). -/
def statusList : List ChannelStatus :=
  [.OFF, .ON, .RAMPING_UP, .RAMPING_DOWN, .OVER_CURRENT, .OVER_VOLTAGE,
   .UNDER_VOLTAGE, .MAX_VOLTAGE, .TRIPPED, .OVER_POWERED, .OVER_TEMPERATURE,
   .DISABLED, .KILLED, .INTERLOCKED, .NO_CALIBRATION]

/-- Loop body of `ChannelStatus._parse_state`: skip `OFF`, return the first
member whose bit `value - 1` is set in `state`, else fall through to `OFF`. -/
def parseStateLoop (state : Nat) : List ChannelStatus → ChannelStatus
  | [] => ChannelStatus.OFF
  | s :: rest =>
    if (s != ChannelStatus.OFF) &&
        (state &&& (1 <<< (statusValue s - 1)) != 0) then s
    else parseStateLoop state rest

/-- Embedding of `Caen1471.ChannelStatus._parse_state`: the members are
scanned with `reversed(Caen1471.ChannelStatus)`. -/
def channelStatusParseState (state : Nat) : ChannelStatus :=
  parseStateLoop state statusList.reverse

/-- Modelled from the spec's words (§4.4): scan the non-`OFF` statuses in
reverse declaration order and return the first whose bit is set; `OFF` when
none is.  Used to compare the source loop against the documented rule. -/
def parseStateSpec (state : Nat) : ChannelStatus :=
  ((statusList.reverse.filter (fun s => s != ChannelStatus.OFF)).find?
    (fun s => state &&& (1 <<< (statusValue s - 1)) != 0)).getD
    ChannelStatus.OFF

/-- Embedding of the `Caen1471.AlarmStatus` enumeration, members in
declaration order. -/
inductive AlarmStatus where
  | NO_ALARM
  | CHANNEL_0_ALARM
  | CHANNEL_1_ALARM
  | CHANNEL_2_ALARM
  | CHANNEL_3_ALARM
  | BOARD_POWER_FAIL
  | BOARD_OVER_POWER
  | BOARD_HV_CLOCK_FAIL
deriving DecidableEq

/-- `value` attribute of each `AlarmStatus` member (`1 << k` bit constants). -/
def alarmValue : AlarmStatus → Nat
  | .NO_ALARM => 0
  | .CHANNEL_0_ALARM => 1
  | .CHANNEL_1_ALARM => 2
  | .CHANNEL_2_ALARM => 4
  | .CHANNEL_3_ALARM => 8
  | .BOARD_POWER_FAIL => 16
  | .BOARD_OVER_POWER => 32
  | .BOARD_HV_CLOCK_FAIL => 64

/-- Members of the `AlarmStatus` enumeration in declaration order. -/
def alarmList : List AlarmStatus :=
  [.NO_ALARM, .CHANNEL_0_ALARM, .CHANNEL_1_ALARM, .CHANNEL_2_ALARM,
   .CHANNEL_3_ALARM, .BOARD_POWER_FAIL, .BOARD_OVER_POWER,
   .BOARD_HV_CLOCK_FAIL]

/-- Python `Enum` call `Caen1471.AlarmStatus(n)`: by-value member lookup;
`none` models the `ValueError` raised when `n` is not a member value. -/
def alarmLookup (n : ℤ) : Option AlarmStatus :=
  alarmList.find? (fun a => ((alarmValue a : ℤ) == n))

/-- Python built-in `int(x)` applied to a `_command` result: a string is
parsed (raising `ValueError` on failure), `None` raises `TypeError`, an
integer is returned, a float is truncated toward zero. -/
def pyIntOfValue : Option PyValue → Except PyError ℤ
  | Option.none => Except.error PyError.typeError
  | some (.strV s) =>
    match pyInt s with
    | some i => Except.ok i
    | Option.none => Except.error PyError.valueError
  | some (.intV i) => Except.ok i
  | some (.floatV q) =>
    Except.ok (if 0 ≤ q then ⌊q⌋ else -⌊-q⌋)

/-- Embedding of the `Caen1471.alarm_status` getter applied to the reply of
its `MON BDALARM` exchange:
`Caen1471.AlarmStatus(int(self._command("MON", "BDALARM")))`. -/
def alarmStatusOfReply (reply : List Char) : Except PyError AlarmStatus :=
  match parseReply reply Option.none with
  | Except.error e => Except.error e
  | Except.ok v =>
    match pyIntOfValue v with
    | Except.error e => Except.error e
    | Except.ok n =>
      match alarmLookup n with
      | some a => Except.ok a
      | Option.none => Except.error PyError.valueError

/-- Python `str(x)` of a `_command` result, as inserted by the f-string in
the `polarity` getter (`f'{...}1'`). -/
def pyFormatOptValue : Option PyValue → List Char
  | Option.none => ['N', 'o', 'n', 'e']
  | some (.strV s) => s
  | some (.intV i) => intToChars i
  | some (.floatV q) => pyFloatRepr q

/-- Embedding of the `_HVChannel.polarity` getter applied to the reply of
its `MON POL` exchange:
`int(f'{self.module._command("MON", "POL", self.channel)}1')`. -/
def polarityOfReply (reply : List Char) : Except PyError ℤ :=
  match parseReply reply Option.none with
  | Except.error e => Except.error e
  | Except.ok v =>
    match pyInt (pyFormatOptValue v ++ ['1']) with
    | some i => Except.ok i
    | Option.none => Except.error PyError.valueError

/-- Embedding of the `Caen1471.local_bus_termination` getter applied to the
reply of its `MON BDTERM` exchange:
`self._command("MON", "BDTERM") == "ON"`. -/
def busTerminationOfReply (reply : List Char) : Except PyError Bool :=
  match parseReply reply Option.none with
  | Except.error e => Except.error e
  | Except.ok v => Except.ok (v == some (PyValue.strV ['O', 'N']))

/-- Drops a final `\r\n` terminator (the last two characters of the line). -/
def stripCRLF (cs : List Char) : Option (List Char) :=
  match cs.reverse with
  | '\n' :: '\r' :: rest => some rest.reverse
  | _ => Option.none

/-- Splits a line at every comma (Python-style `str.split(",")`). -/
def splitOnComma : List Char → List (List Char)
  | [] => [[]]
  | c :: cs =>
    if c = ',' then [] :: splitOnComma cs
    else
      match splitOnComma cs with
      | [] => [[c]]
      | f :: r => (c :: f) :: r

/-- Joins fields with commas (inverse view of `splitOnComma`). -/
def joinComma : List (List Char) → List Char
  | [] => []
  | [f] => f
  | f :: fs => f ++ ',' :: joinComma fs

/-- Grammar field `$BD:<module_id>`. -/
def parseBD : List Char → Option Nat
  | '$' :: 'B' :: 'D' :: ':' :: ds => charsToNat ds
  | _ => Option.none

/-- Grammar field `CMD:<operation>`. -/
def stripCMD : List Char → Option (List Char)
  | 'C' :: 'M' :: 'D' :: ':' :: rest => some rest
  | _ => Option.none

/-- Grammar field `CH:<channel>`. -/
def stripCH : List Char → Option (List Char)
  | 'C' :: 'H' :: ':' :: rest => some rest
  | _ => Option.none

/-- Grammar field `PAR:<parameter>`. -/
def stripPAR : List Char → Option (List Char)
  | 'P' :: 'A' :: 'R' :: ':' :: rest => some rest
  | _ => Option.none

/-- Grammar field `VAL:<value>`. -/
def stripVAL : List Char → Option (List Char)
  | 'V' :: 'A' :: 'L' :: ':' :: rest => some rest
  | _ => Option.none

/-- Trailing `PAR:<parameter>[,VAL:<value>]` fields of the grammar. -/
def parseParVal : List (List Char) → Option (List Char × Option (List Char))
  | [fp] =>
    match stripPAR fp with
    | some par => some (par, Option.none)
    | Option.none => Option.none
  | [fp, fv] =>
    match stripPAR fp, stripVAL fv with
    | some par, some v => some (par, some v)
    | _, _ => Option.none
  | _ => Option.none

/-- Field values recovered by matching a request line against the
documented grammar. -/
structure CommandFields where
  moduleId : Nat
  operation : List Char
  channel : Option Nat
  parameter : List Char
  value : Option (List Char)
deriving DecidableEq

/-- Modelled from the spec's words (§4.1, §6): matcher for the documented
request grammar
`$BD:<module_id>,CMD:<operation>[,CH:<channel>],PAR:<parameter>[,VAL:<value>]`
terminated by CRLF, recovering the field values.  Used to state the
encode-then-match round trip. -/
def parseCommandLine (line : List Char) : Option CommandFields :=
  match stripCRLF line with
  | Option.none => Option.none
  | some body =>
    match splitOnComma body with
    | f1 :: f2 :: rest =>
      match parseBD f1, stripCMD f2 with
      | some m, some op =>
        (match rest with
         | f3 :: rest2 =>
           match stripCH f3 with
           | some chs =>
             match charsToNat chs, parseParVal rest2 with
             | some ch, some (par, v) => some ⟨m, op, some ch, par, v⟩
             | _, _ => Option.none
           | Option.none =>
             match parseParVal rest with
             | some (par, v) => some ⟨m, op, Option.none, par, v⟩
             | Option.none => Option.none
         | [] => Option.none)
      | _, _ => Option.none
    | _ => Option.none

/-- Fields assumed free of the delimiter characters `,` `:` and CRLF — the
documented, unvalidated precondition of the Command Encoder. -/
def delimFree (s : List Char) : Prop :=
  ∀ c ∈ s, c ≠ ',' ∧ c ≠ ':' ∧ c ≠ '\r' ∧ c ≠ '\n'

instance (s : List Char) : Decidable (delimFree s) := by
  unfold delimFree
  infer_instance

/-- Round-half-even at integer precision, the rounding Python's fixed-point
formatting applies to the scaled value. -/
def roundHalfEven (x : ℚ) : ℤ :=
  if x - ⌊x⌋ < 1 / 2 then ⌊x⌋
  else if 1 / 2 < x - ⌊x⌋ then ⌊x⌋ + 1
  else if ⌊x⌋ % 2 = 0 then ⌊x⌋ else ⌊x⌋ + 1

/-- Python `"{:.1f}".format(x)`: the value scaled by ten is rounded
half-even to an integer and rendered with the last digit after a dot. -/
def formatFixed1 (q : ℚ) : List Char :=
  (if roundHalfEven (q * 10) < 0 then ['-'] else []) ++
    natToChars ((roundHalfEven (q * 10)).natAbs / 10) ++
    ['.', digitToChar ((roundHalfEven (q * 10)).natAbs % 10)]

/-- Tests that a rendered value has exactly one decimal digit: it ends in a
dot followed by a single digit, and contains no other dot. -/
def hasOneDecimalB (s : List Char) : Bool :=
  match s.reverse with
  | d :: '.' :: rest => d.isDigit && rest.all (fun c => c != '.')
  | _ => false

/-- Wire line produced by the `_HVChannel.voltage` setter:
`_command("SET", "VSET", channel, value="{:.1f}".format(voltage))`. -/
def voltageSetLine (module ch : Nat) (v : ℚ) : List Char :=
  encodeCommand module ['S', 'E', 'T'] (some ch) ['V', 'S', 'E', 'T']
    (some (formatFixed1 v))

/-- Wire line produced by the `_HVChannel.current_limit` setter:
`_command("SET", "ISET", channel, value="{:.1f}".format(current))`. -/
def currentLimitSetLine (module ch : Nat) (current : ℚ) : List Char :=
  encodeCommand module ['S', 'E', 'T'] (some ch) ['I', 'S', 'E', 'T']
    (some (formatFixed1 current))

/-- Wire line produced by the `_HVChannel.ramp_up_rate` setter:
`_command("SET", "RUP", channel, value=rate)` — the rate is inserted via
`str(rate)`, with no fixed-point formatting. -/
def rampUpSetLine (module ch : Nat) (rate : PyScalar) : List Char :=
  encodeCommand module ['S', 'E', 'T'] (some ch) ['R', 'U', 'P']
    (some (pyScalarStr rate))

/-- Wire line produced by the `_HVChannel.ramp_down_rate` setter:
`_command("SET", "RDW", channel, value=rate)` — the rate is inserted via
`str(rate)`, with no fixed-point formatting. -/
def rampDownSetLine (module ch : Nat) (rate : PyScalar) : List Char :=
  encodeCommand module ['S', 'E', 'T'] (some ch) ['R', 'D', 'W']
    (some (pyScalarStr rate))

/-- Modelled from the spec's words (§4.3): an error reply pattern anchored
at the very start of the raw line — board digits after the literal `#BD:`,
the given tail, and the `\r\n` terminator (with Python's `$` also allowing
one extra trailing newline). -/
def errLineMatch (tail : List Char) (reply : List Char) : Prop :=
  ∃ ds t, ds ≠ [] ∧ (∀ c ∈ ds, c.isDigit = true) ∧ (t = [] ∨ t = ['\n']) ∧
    reply = ['#', 'B', 'D', ':'] ++ ds ++ tail ++ t

lemma charToDigit_digitToChar : ∀ d < 10, charToDigit (digitToChar d) = some d := by
  decide

lemma digitToChar_isDigit : ∀ d < 10, (digitToChar d).isDigit = true := by
  decide

lemma isDigit_delims {c : Char} (h : c.isDigit = true) :
    c ≠ ',' ∧ c ≠ ':' ∧ c ≠ '\r' ∧ c ≠ '\n' ∧ c ≠ '.' ∧ c ≠ '$' := by
  refine ⟨?_, ?_, ?_, ?_, ?_, ?_⟩ <;> (intro he; subst he; exact absurd h (by decide))

lemma natToCharsGo_isDigit {fuel n : Nat} (h : n < fuel) :
    ∀ c ∈ natToCharsGo fuel n, c.isDigit = true := by
  induction fuel generalizing n with
  | zero => omega
  | succ fuel ih =>
    intro c hc
    by_cases h10 : n < 10
    · simp only [natToCharsGo, if_pos h10, List.mem_singleton] at hc
      subst hc
      exact digitToChar_isDigit n h10
    · simp only [natToCharsGo, if_neg h10, List.mem_append, List.mem_singleton] at hc
      rcases hc with hc | hc
      · exact ih (by have := Nat.div_lt_self (by omega : 0 < n) (by omega : 1 < 10); omega) c hc
      · subst hc
        exact digitToChar_isDigit _ (Nat.mod_lt n (by omega))

lemma natToChars_isDigit (n : Nat) : ∀ c ∈ natToChars n, c.isDigit = true :=
  natToCharsGo_isDigit (Nat.lt_succ_self n)

lemma natToCharsGo_ne_nil {fuel n : Nat} (h : n < fuel) : natToCharsGo fuel n ≠ [] := by
  cases fuel with
  | zero => omega
  | succ fuel =>
    by_cases h10 : n < 10 <;> simp [natToCharsGo, h10]

lemma charsToNatAux_append (acc : Nat) (xs ys : List Char) :
    charsToNatAux acc (xs ++ ys) =
      match charsToNatAux acc xs with
      | some a => charsToNatAux a ys
      | Option.none => Option.none := by
  induction xs generalizing acc with
  | nil => simp [charsToNatAux]
  | cons c cs ih =>
    simp only [List.cons_append, charsToNatAux]
    cases charToDigit c with
    | none => rfl
    | some d => exact ih _

lemma natToCharsGo_eval {fuel n : Nat} (acc : Nat) (h : n < fuel) :
    charsToNatAux acc (natToCharsGo fuel n) =
      some (acc * 10 ^ (natToCharsGo fuel n).length + n) := by
  induction fuel generalizing n acc with
  | zero => omega
  | succ fuel ih =>
    by_cases h10 : n < 10
    · simp only [natToCharsGo, if_pos h10, charsToNatAux,
        charToDigit_digitToChar n h10, List.length_singleton, pow_one]
    · have hdiv : n / 10 < fuel := by
        have := Nat.div_lt_self (by omega : 0 < n) (by omega : 1 < 10)
        omega
      simp only [natToCharsGo, if_neg h10, charsToNatAux_append, ih acc hdiv,
        charsToNatAux, charToDigit_digitToChar (n % 10) (Nat.mod_lt n (by omega)),
        List.length_append, List.length_singleton]
      congr 1
      have hmod := Nat.div_add_mod n 10
      ring_nf
      omega

lemma charsToNat_natToChars (n : Nat) : charsToNat (natToChars n) = some n := by
  have h1 := @natToCharsGo_eval (n + 1) n 0 (Nat.lt_succ_self n)
  have h2 := @natToCharsGo_ne_nil (n + 1) n (Nat.lt_succ_self n)
  unfold charsToNat natToChars at *
  rcases hm : natToCharsGo (n + 1) n with _ | ⟨c, cs⟩
  · exact absurd hm h2
  · rw [hm] at h1
    simpa using h1

lemma takeWhile_all_append {p : Char → Bool} {xs : List Char} {y : Char}
    (ys : List Char) (hxs : ∀ c ∈ xs, p c = true) (hy : p y = false) :
    (xs ++ y :: ys).takeWhile p = xs := by
  induction xs with
  | nil => simp [List.takeWhile_cons, hy]
  | cons a as ih =>
    have ha : p a = true := hxs a (by simp)
    simp [List.takeWhile_cons_of_pos ha, ih (fun c hc => hxs c (by simp [hc]))]

lemma dropWhile_all_append {p : Char → Bool} {xs : List Char} {y : Char}
    (ys : List Char) (hxs : ∀ c ∈ xs, p c = true) (hy : p y = false) :
    (xs ++ y :: ys).dropWhile p = y :: ys := by
  induction xs with
  | nil => simp [List.dropWhile_cons, hy]
  | cons a as ih =>
    have ha : p a = true := hxs a (by simp)
    simp [List.dropWhile_cons_of_pos ha, ih (fun c hc => hxs c (by simp [hc]))]

lemma splitOnComma_ne_nil (xs : List Char) : splitOnComma xs ≠ [] := by
  cases xs with
  | nil => simp [splitOnComma]
  | cons c cs =>
    by_cases hc : c = ','
    · simp [splitOnComma, hc]
    · simp only [splitOnComma, if_neg hc]
      rcases splitOnComma cs with _ | ⟨f, r⟩ <;> simp

lemma splitOnComma_no_comma {xs : List Char} (h : ',' ∉ xs) :
    splitOnComma xs = [xs] := by
  induction xs with
  | nil => rfl
  | cons c cs ih =>
    have hc : ¬ c = ',' := fun e => h (by simp [e])
    have hcs : splitOnComma cs = [cs] := ih (fun m => h (List.mem_cons_of_mem _ m))
    simp [splitOnComma, hc, hcs]

lemma splitOnComma_append {xs : List Char} (ys : List Char) (h : ',' ∉ xs) :
    splitOnComma (xs ++ ',' :: ys) = xs :: splitOnComma ys := by
  induction xs with
  | nil => simp [splitOnComma]
  | cons c cs ih =>
    have hc : ¬ c = ',' := fun e => h (by simp [e])
    have hcs := ih (fun m => h (List.mem_cons_of_mem _ m))
    simp only [List.cons_append, splitOnComma, if_neg hc]
    rw [show cs.append (',' :: ys) = cs ++ ',' :: ys from rfl, hcs]

lemma splitOnComma_joinComma (fs : List (List Char)) (hne : fs ≠ [])
    (hfree : ∀ f ∈ fs, ',' ∉ f) :
    splitOnComma (joinComma fs) = fs := by
  induction fs with
  | nil => exact absurd rfl hne
  | cons f fs ih =>
    cases fs with
    | nil => simpa [joinComma] using splitOnComma_no_comma (hfree f (by simp))
    | cons g gs =>
      rw [show joinComma (f :: g :: gs) = f ++ ',' :: joinComma (g :: gs) from rfl]
      rw [splitOnComma_append _ (hfree f (by simp))]
      rw [ih (by simp) (fun x hx => hfree x (by simp [hx]))]

lemma stripCRLF_append (xs : List Char) :
    stripCRLF (xs ++ ['\r', '\n']) = some xs := by
  unfold stripCRLF
  rw [show (xs ++ ['\r', '\n']).reverse = '\n' :: '\r' :: xs.reverse from by simp]
  simp

lemma parseBD_eval (ds : List Char) :
    parseBD ('$' :: 'B' :: 'D' :: ':' :: ds) = charsToNat ds := rfl

lemma stripCMD_eval (s : List Char) :
    stripCMD ('C' :: 'M' :: 'D' :: ':' :: s) = some s := rfl

lemma stripCH_eval (s : List Char) :
    stripCH ('C' :: 'H' :: ':' :: s) = some s := rfl

lemma stripPAR_eval (s : List Char) :
    stripPAR ('P' :: 'A' :: 'R' :: ':' :: s) = some s := rfl

lemma stripVAL_eval (s : List Char) :
    stripVAL ('V' :: 'A' :: 'L' :: ':' :: s) = some s := rfl

lemma stripCH_on_par (s : List Char) :
    stripCH ('P' :: 'A' :: 'R' :: ':' :: s) = Option.none := rfl

lemma comma_not_mem_digits (pre : List Char) (hpre : ',' ∉ pre) (n : Nat) :
    ',' ∉ pre ++ natToChars n := by
  intro hmem
  rcases List.mem_append.mp hmem with h | h
  · exact hpre h
  · exact absurd (natToChars_isDigit n ',' h) (by decide)

lemma comma_not_mem_tag (pre : List Char) (hpre : ',' ∉ pre) {s : List Char}
    (hs : ',' ∉ s) : ',' ∉ pre ++ s := by
  intro hmem
  rcases List.mem_append.mp hmem with h | h
  · exact hpre h
  · exact hs h

lemma encode_roundtrip_aux (module : Nat) (cmd : List Char)
    (channel : Option Nat) (par : List Char) (value : Option (List Char))
    (hcmd : ',' ∉ cmd) (hpar : ',' ∉ par) (hval : ∀ w ∈ value, ',' ∉ w) :
    parseCommandLine (encodeCommand module cmd channel par value) =
      some ⟨module, cmd, channel, par, value⟩ := by
  have hf1 : ',' ∉ '$' :: 'B' :: 'D' :: ':' :: natToChars module :=
    comma_not_mem_digits ['$', 'B', 'D', ':'] (by decide) module
  have hf2 : ',' ∉ 'C' :: 'M' :: 'D' :: ':' :: cmd :=
    comma_not_mem_tag ['C', 'M', 'D', ':'] (by decide) hcmd
  have hf4 : ',' ∉ 'P' :: 'A' :: 'R' :: ':' :: par :=
    comma_not_mem_tag ['P', 'A', 'R', ':'] (by decide) hpar
  rcases channel with _ | c <;> rcases value with _ | v
  · have hline : encodeCommand module cmd Option.none par Option.none =
        joinComma ['$' :: 'B' :: 'D' :: ':' :: natToChars module,
          'C' :: 'M' :: 'D' :: ':' :: cmd,
          'P' :: 'A' :: 'R' :: ':' :: par] ++ ['\r', '\n'] := by
      simp [encodeCommand, joinComma]
    have hsplit := splitOnComma_joinComma
      (['$' :: 'B' :: 'D' :: ':' :: natToChars module,
        'C' :: 'M' :: 'D' :: ':' :: cmd,
        'P' :: 'A' :: 'R' :: ':' :: par]) (by simp)
      (by
        intro f hf
        simp only [List.mem_cons, List.not_mem_nil, or_false] at hf
        rcases hf with rfl | rfl | rfl
        · exact hf1
        · exact hf2
        · exact hf4)
    rw [hline]
    unfold parseCommandLine
    simp [stripCRLF_append, hsplit, parseBD_eval, stripCMD_eval,
      stripCH_on_par, stripPAR_eval, parseParVal, charsToNat_natToChars]
  · have hv : ',' ∉ v := hval v (by simp)
    have hf5 : ',' ∉ 'V' :: 'A' :: 'L' :: ':' :: v :=
      comma_not_mem_tag ['V', 'A', 'L', ':'] (by decide) hv
    have hline : encodeCommand module cmd Option.none par (some v) =
        joinComma ['$' :: 'B' :: 'D' :: ':' :: natToChars module,
          'C' :: 'M' :: 'D' :: ':' :: cmd,
          'P' :: 'A' :: 'R' :: ':' :: par,
          'V' :: 'A' :: 'L' :: ':' :: v] ++ ['\r', '\n'] := by
      simp [encodeCommand, joinComma]
    have hsplit := splitOnComma_joinComma
      (['$' :: 'B' :: 'D' :: ':' :: natToChars module,
        'C' :: 'M' :: 'D' :: ':' :: cmd,
        'P' :: 'A' :: 'R' :: ':' :: par,
        'V' :: 'A' :: 'L' :: ':' :: v]) (by simp)
      (by
        intro f hf
        simp only [List.mem_cons, List.not_mem_nil, or_false] at hf
        rcases hf with rfl | rfl | rfl | rfl
        · exact hf1
        · exact hf2
        · exact hf4
        · exact hf5)
    rw [hline]
    unfold parseCommandLine
    simp [stripCRLF_append, hsplit, parseBD_eval, stripCMD_eval,
      stripCH_on_par, stripPAR_eval, stripVAL_eval, parseParVal,
      charsToNat_natToChars]
  · have hf3 : ',' ∉ 'C' :: 'H' :: ':' :: natToChars c :=
      comma_not_mem_digits ['C', 'H', ':'] (by decide) c
    have hline : encodeCommand module cmd (some c) par Option.none =
        joinComma ['$' :: 'B' :: 'D' :: ':' :: natToChars module,
          'C' :: 'M' :: 'D' :: ':' :: cmd,
          'C' :: 'H' :: ':' :: natToChars c,
          'P' :: 'A' :: 'R' :: ':' :: par] ++ ['\r', '\n'] := by
      simp [encodeCommand, joinComma]
    have hsplit := splitOnComma_joinComma
      (['$' :: 'B' :: 'D' :: ':' :: natToChars module,
        'C' :: 'M' :: 'D' :: ':' :: cmd,
        'C' :: 'H' :: ':' :: natToChars c,
        'P' :: 'A' :: 'R' :: ':' :: par]) (by simp)
      (by
        intro f hf
        simp only [List.mem_cons, List.not_mem_nil, or_false] at hf
        rcases hf with rfl | rfl | rfl | rfl
        · exact hf1
        · exact hf2
        · exact hf3
        · exact hf4)
    rw [hline]
    unfold parseCommandLine
    simp [stripCRLF_append, hsplit, parseBD_eval, stripCMD_eval,
      stripCH_eval, stripPAR_eval, parseParVal, charsToNat_natToChars]
  · have hv : ',' ∉ v := hval v (by simp)
    have hf3 : ',' ∉ 'C' :: 'H' :: ':' :: natToChars c :=
      comma_not_mem_digits ['C', 'H', ':'] (by decide) c
    have hf5 : ',' ∉ 'V' :: 'A' :: 'L' :: ':' :: v :=
      comma_not_mem_tag ['V', 'A', 'L', ':'] (by decide) hv
    have hline : encodeCommand module cmd (some c) par (some v) =
        joinComma ['$' :: 'B' :: 'D' :: ':' :: natToChars module,
          'C' :: 'M' :: 'D' :: ':' :: cmd,
          'C' :: 'H' :: ':' :: natToChars c,
          'P' :: 'A' :: 'R' :: ':' :: par,
          'V' :: 'A' :: 'L' :: ':' :: v] ++ ['\r', '\n'] := by
      simp [encodeCommand, joinComma]
    have hsplit := splitOnComma_joinComma
      (['$' :: 'B' :: 'D' :: ':' :: natToChars module,
        'C' :: 'M' :: 'D' :: ':' :: cmd,
        'C' :: 'H' :: ':' :: natToChars c,
        'P' :: 'A' :: 'R' :: ':' :: par,
        'V' :: 'A' :: 'L' :: ':' :: v]) (by simp)
      (by
        intro f hf
        simp only [List.mem_cons, List.not_mem_nil, or_false] at hf
        rcases hf with rfl | rfl | rfl | rfl | rfl
        · exact hf1
        · exact hf2
        · exact hf3
        · exact hf4
        · exact hf5)
    rw [hline]
    unfold parseCommandLine
    simp [stripCRLF_append, hsplit, parseBD_eval, stripCMD_eval,
      stripCH_eval, stripPAR_eval, stripVAL_eval, parseParVal,
      charsToNat_natToChars]

lemma find?_filter_eq {α : Type} (l : List α) (p q : α → Bool) :
    (l.filter p).find? q = l.find? (fun a => p a && q a) := by
  induction l with
  | nil => rfl
  | cons a t ih =>
    cases hp : p a with
    | false => simp [List.filter_cons, hp, List.find?_cons, ih]
    | true =>
      cases hq : q a with
      | false => simp [List.filter_cons, hp, List.find?_cons, hq, ih]
      | true => simp [List.filter_cons, hp, List.find?_cons, hq]

lemma parseStateLoop_eq_find (state : Nat) (l : List ChannelStatus) :
    parseStateLoop state l =
      (l.find? (fun s => (s != ChannelStatus.OFF) &&
        (state &&& (1 <<< (statusValue s - 1)) != 0))).getD
        ChannelStatus.OFF := by
  induction l with
  | nil => rfl
  | cons s rest ih =>
    simp only [parseStateLoop, List.find?_cons]
    cases h : ((s != ChannelStatus.OFF) &&
        (state &&& (1 <<< (statusValue s - 1)) != 0)) <;>
      simp [h, ih]

lemma hasOneDecimalB_append (X : List Char) (d : Char) (hd : d.isDigit = true)
    (hX : ∀ c ∈ X, c ≠ '.') : hasOneDecimalB (X ++ ['.', d]) = true := by
  unfold hasOneDecimalB
  rw [show (X ++ ['.', d]).reverse = d :: '.' :: X.reverse from by simp]
  simp only [hd, Bool.true_and, List.all_eq_true]
  intro c hc
  simpa using hX c (List.mem_reverse.mp hc)

lemma sign_digits_no_dot (X : List Char) (hX : X = [] ∨ X = ['-']) (a : Nat) :
    ∀ c ∈ X ++ natToChars a, c ≠ '.' := by
  intro c hc
  rcases List.mem_append.mp hc with h | h
  · rcases hX with rfl | rfl
    · simp at h
    · simp only [List.mem_singleton] at h
      subst h
      decide
  · exact (isDigit_delims (natToChars_isDigit a c h)).2.2.2.2.1

lemma formatFixed1_hasOneDecimal (q : ℚ) :
    hasOneDecimalB (formatFixed1 q) = true := by
  unfold formatFixed1
  exact hasOneDecimalB_append _ _
    (digitToChar_isDigit _ (Nat.mod_lt _ (by omega)))
    (sign_digits_no_dot _ (by by_cases h : roundHalfEven (q * 10) < 0 <;> simp [h]) _)

lemma formatFixed1_delimFree (q : ℚ) : delimFree (formatFixed1 q) := by
  intro c hc
  unfold formatFixed1 at hc
  rcases List.mem_append.mp hc with h | h
  · rcases List.mem_append.mp h with h1 | h1
    · by_cases hneg : roundHalfEven (q * 10) < 0
      · rw [if_pos hneg] at h1
        simp only [List.mem_singleton] at h1
        subst h1
        decide
      · rw [if_neg hneg] at h1
        simp at h1
    · have := isDigit_delims (natToChars_isDigit _ c h1)
      exact ⟨this.1, this.2.1, this.2.2.1, this.2.2.2.1⟩
  · simp only [List.mem_cons, List.not_mem_nil, or_false] at h
    rcases h with rfl | rfl
    · decide
    · have := isDigit_delims (digitToChar_isDigit
        ((roundHalfEven (q * 10)).natAbs % 10) (Nat.mod_lt _ (by omega)))
      exact ⟨this.1, this.2.1, this.2.2.1, this.2.2.2.1⟩

lemma delimFree_comma {s : List Char} (h : delimFree s) : ',' ∉ s :=
  fun hm => (h ',' hm).1 rfl

lemma dropHashBD_eval (s : List Char) :
    dropHashBD ('#' :: 'B' :: 'D' :: ':' :: s) = some s := rfl

lemma matchErrTail_eval {ds : List Char} (u : List Char) (X : List Char)
    (hne : ds ≠ []) (hdig : ∀ c ∈ ds, c.isDigit = true) :
    matchErrTail X (ds ++ ',' :: u) =
      (((',' :: u : List Char) == X) || ((',' :: u : List Char) == X ++ ['\n'])) := by
  unfold matchErrTail
  rw [takeWhile_all_append u hdig (by decide),
    dropWhile_all_append u hdig (by decide)]
  cases ds with
  | nil => exact absurd rfl hne
  | cons a as => simp [List.isEmpty]

lemma matchErrTail_true {X rest : List Char} (h : matchErrTail X rest = true) :
    ∃ ds t, ds ≠ [] ∧ (∀ c ∈ ds, c.isDigit = true) ∧ (t = [] ∨ t = ['\n']) ∧
      rest = ds ++ X ++ t := by
  unfold matchErrTail at h
  rw [Bool.and_eq_true, Bool.or_eq_true] at h
  obtain ⟨h1, h2⟩ := h
  have hne : rest.takeWhile Char.isDigit ≠ [] := by
    intro he
    rw [he] at h1
    simp [List.isEmpty] at h1
  have hdig : ∀ c ∈ rest.takeWhile Char.isDigit, c.isDigit = true :=
    fun c hc => List.mem_takeWhile_imp hc
  have hsplitRest := (List.takeWhile_append_dropWhile Char.isDigit rest).symm
  cases h2 with
  | inl h2 =>
    refine ⟨rest.takeWhile Char.isDigit, [], hne, hdig, Or.inl rfl, ?_⟩
    rw [beq_iff_eq] at h2
    rw [List.append_nil, ← h2]
    exact hsplitRest
  | inr h2 =>
    refine ⟨rest.takeWhile Char.isDigit, ['\n'], hne, hdig, Or.inr rfl, ?_⟩
    rw [beq_iff_eq] at h2
    rw [List.append_assoc, ← h2]
    exact hsplitRest

lemma dropHashBD_some {reply rest : List Char} (h : dropHashBD reply = some rest) :
    reply = '#' :: 'B' :: 'D' :: ':' :: rest := by
  unfold dropHashBD at h
  split at h
  · rename_i s
    injection h with h
    rw [h]
  · exact absurd h (by simp)

lemma checkErrorE_some {reply : List Char} {e : PyError}
    (h : checkErrorE reply = some e) :
    ∃ rest, reply = '#' :: 'B' :: 'D' :: ':' :: rest ∧
      ((e = PyError.unknownCommand ∧ matchErrTail errTailCMD rest = true) ∨
       (e = PyError.channelError ∧ matchErrTail errTailCH rest = true) ∨
       (e = PyError.parameterError ∧ matchErrTail errTailPAR rest = true) ∨
       (e = PyError.valueError ∧ matchErrTail errTailVAL rest = true) ∨
       (e = PyError.permissionError ∧ matchErrTail errTailLOC rest = true)) := by
  unfold checkErrorE at h
  cases hbd : dropHashBD reply with
  | none =>
    simp only [hbd] at h
    exact absurd h (by simp)
  | some rest =>
    simp only [hbd] at h
    refine ⟨rest, dropHashBD_some hbd, ?_⟩
    split_ifs at h with h1 h2 h3 h4 h5
    · injection h with h
      exact Or.inl ⟨h.symm, h1⟩
    · injection h with h
      exact Or.inr (Or.inl ⟨h.symm, h2⟩)
    · injection h with h
      exact Or.inr (Or.inr (Or.inl ⟨h.symm, h3⟩))
    · injection h with h
      exact Or.inr (Or.inr (Or.inr (Or.inl ⟨h.symm, h4⟩)))
    · injection h with h
      exact Or.inr (Or.inr (Or.inr (Or.inr ⟨h.symm, h5⟩)))

lemma parseReply_checkNone (reply : List Char) (ty : Option PyType)
    (h : checkErrorE reply = Option.none) :
    parseReply reply ty = Except.error PyError.invalidReply ∨
      ∃ v, parseReply reply ty = Except.ok v := by
  unfold parseReply
  simp only [h]
  cases hm : matchSuccess (pyLstrip reply) with
  | none =>
    refine Or.inr ⟨Option.none, ?_⟩
    simp only [hm]
  | some payload =>
    cases ty with
    | none =>
      refine Or.inr ⟨some (PyValue.strV payload), ?_⟩
      simp only [hm]
    | some t =>
      cases hc : pyTypeConvert t payload with
      | none =>
        refine Or.inl ?_
        simp only [hm, hc]
      | some v =>
        refine Or.inr ⟨some v, ?_⟩
        simp only [hm, hc]

lemma spinLoop_timeout (clock : Nat → ℚ) (start : ℚ) :
    ∀ fuel i, (∃ j, i ≤ j ∧ j < i + fuel ∧ clock j - start > 5) →
      spinLoop clock start i fuel = some false := by
  intro fuel
  induction fuel with
  | zero =>
    rintro i ⟨j, h1, h2, _⟩
    omega
  | succ fuel ih =>
    rintro i ⟨j, h1, h2, h3⟩
    by_cases hi : clock i - start > 5
    · simp [spinLoop, hi]
    · have hij : j ≠ i := fun e => hi (e ▸ h3)
      simp only [spinLoop, if_neg hi]
      exact ih (i + 1) ⟨j, by omega, by omega, h3⟩

lemma parseReply_of_checkError {reply : List Char} {e : PyError}
    (ty : Option PyType) (h : checkErrorE reply = some e) :
    parseReply reply ty = Except.error e := by
  unfold parseReply
  simp only [h]

lemma checkError_of_parseReply {reply : List Char} {ty : Option PyType}
    {e : PyError} (hne : e ≠ PyError.invalidReply)
    (h : parseReply reply ty = Except.error e) : checkErrorE reply = some e := by
  cases hchk : checkErrorE reply with
  | some e2 =>
    unfold parseReply at h
    simp only [hchk] at h
    injection h with h
    rw [h]
  | none =>
    rcases parseReply_checkNone reply ty hchk with h2 | ⟨v, h2⟩
    · rw [h] at h2
      injection h2 with h2
      exact absurd h2 hne
    · rw [h] at h2
      exact absurd h2 (by simp)

lemma checkErrorE_errCMD {reply : List Char} (h : errLineMatch errTailCMD reply) :
    checkErrorE reply = some PyError.unknownCommand := by
  obtain ⟨ds, t, hne, hdig, ht, rfl⟩ := h
  have hform : ['#', 'B', 'D', ':'] ++ ds ++ errTailCMD ++ t =
      '#' :: 'B' :: 'D' :: ':' ::
        (ds ++ ',' :: (('C' :: 'M' :: 'D' :: ':' :: 'E' :: 'R' :: 'R' :: '\r' :: '\n' :: []) ++ t)) := by
    simp [errTailCMD]
  rw [hform]
  unfold checkErrorE
  rw [dropHashBD_eval]
  rcases ht with rfl | rfl <;>
    simp [matchErrTail_eval _ _ hne hdig, errTailCMD, errTailCH, errTailPAR,
      errTailVAL, errTailLOC]

lemma checkErrorE_errCH {reply : List Char} (h : errLineMatch errTailCH reply) :
    checkErrorE reply = some PyError.channelError := by
  obtain ⟨ds, t, hne, hdig, ht, rfl⟩ := h
  have hform : ['#', 'B', 'D', ':'] ++ ds ++ errTailCH ++ t =
      '#' :: 'B' :: 'D' :: ':' ::
        (ds ++ ',' :: (('C' :: 'H' :: ':' :: 'E' :: 'R' :: 'R' :: '\r' :: '\n' :: []) ++ t)) := by
    simp [errTailCH]
  rw [hform]
  unfold checkErrorE
  rw [dropHashBD_eval]
  rcases ht with rfl | rfl <;>
    simp [matchErrTail_eval _ _ hne hdig, errTailCMD, errTailCH, errTailPAR,
      errTailVAL, errTailLOC]

lemma checkErrorE_errPAR {reply : List Char} (h : errLineMatch errTailPAR reply) :
    checkErrorE reply = some PyError.parameterError := by
  obtain ⟨ds, t, hne, hdig, ht, rfl⟩ := h
  have hform : ['#', 'B', 'D', ':'] ++ ds ++ errTailPAR ++ t =
      '#' :: 'B' :: 'D' :: ':' ::
        (ds ++ ',' :: (('P' :: 'A' :: 'R' :: ':' :: 'E' :: 'R' :: 'R' :: '\r' :: '\n' :: []) ++ t)) := by
    simp [errTailPAR]
  rw [hform]
  unfold checkErrorE
  rw [dropHashBD_eval]
  rcases ht with rfl | rfl <;>
    simp [matchErrTail_eval _ _ hne hdig, errTailCMD, errTailCH, errTailPAR,
      errTailVAL, errTailLOC]

lemma checkErrorE_errVAL {reply : List Char} (h : errLineMatch errTailVAL reply) :
    checkErrorE reply = some PyError.valueError := by
  obtain ⟨ds, t, hne, hdig, ht, rfl⟩ := h
  have hform : ['#', 'B', 'D', ':'] ++ ds ++ errTailVAL ++ t =
      '#' :: 'B' :: 'D' :: ':' ::
        (ds ++ ',' :: (('V' :: 'A' :: 'L' :: ':' :: 'E' :: 'R' :: 'R' :: '\r' :: '\n' :: []) ++ t)) := by
    simp [errTailVAL]
  rw [hform]
  unfold checkErrorE
  rw [dropHashBD_eval]
  rcases ht with rfl | rfl <;>
    simp [matchErrTail_eval _ _ hne hdig, errTailCMD, errTailCH, errTailPAR,
      errTailVAL, errTailLOC]

lemma checkErrorE_errLOC {reply : List Char} (h : errLineMatch errTailLOC reply) :
    checkErrorE reply = some PyError.permissionError := by
  obtain ⟨ds, t, hne, hdig, ht, rfl⟩ := h
  have hform : ['#', 'B', 'D', ':'] ++ ds ++ errTailLOC ++ t =
      '#' :: 'B' :: 'D' :: ':' ::
        (ds ++ ',' :: (('L' :: 'O' :: 'C' :: ':' :: 'E' :: 'R' :: 'R' :: '\r' :: '\n' :: []) ++ t)) := by
    simp [errTailLOC]
  rw [hform]
  unfold checkErrorE
  rw [dropHashBD_eval]
  rcases ht with rfl | rfl <;>
    simp [matchErrTail_eval _ _ hne hdig, errTailCMD, errTailCH, errTailPAR,
      errTailVAL, errTailLOC]

lemma errLine_of_checkError_CMD {reply : List Char}
    (h : checkErrorE reply = some PyError.unknownCommand) :
    errLineMatch errTailCMD reply := by
  obtain ⟨rest, hr, hd⟩ := checkErrorE_some h
  rcases hd with ⟨he, hm⟩ | ⟨he, hm⟩ | ⟨he, hm⟩ | ⟨he, hm⟩ | ⟨he, hm⟩ <;>
    first
      | exact absurd he (by decide)
      | (obtain ⟨ds, t, h1, h2, h3, h4⟩ := matchErrTail_true hm
         exact ⟨ds, t, h1, h2, h3, by rw [hr, h4]; simp⟩)

lemma errLine_of_checkError_CH {reply : List Char}
    (h : checkErrorE reply = some PyError.channelError) :
    errLineMatch errTailCH reply := by
  obtain ⟨rest, hr, hd⟩ := checkErrorE_some h
  rcases hd with ⟨he, hm⟩ | ⟨he, hm⟩ | ⟨he, hm⟩ | ⟨he, hm⟩ | ⟨he, hm⟩ <;>
    first
      | exact absurd he (by decide)
      | (obtain ⟨ds, t, h1, h2, h3, h4⟩ := matchErrTail_true hm
         exact ⟨ds, t, h1, h2, h3, by rw [hr, h4]; simp⟩)

lemma errLine_of_checkError_PAR {reply : List Char}
    (h : checkErrorE reply = some PyError.parameterError) :
    errLineMatch errTailPAR reply := by
  obtain ⟨rest, hr, hd⟩ := checkErrorE_some h
  rcases hd with ⟨he, hm⟩ | ⟨he, hm⟩ | ⟨he, hm⟩ | ⟨he, hm⟩ | ⟨he, hm⟩ <;>
    first
      | exact absurd he (by decide)
      | (obtain ⟨ds, t, h1, h2, h3, h4⟩ := matchErrTail_true hm
         exact ⟨ds, t, h1, h2, h3, by rw [hr, h4]; simp⟩)

lemma errLine_of_checkError_VAL {reply : List Char}
    (h : checkErrorE reply = some PyError.valueError) :
    errLineMatch errTailVAL reply := by
  obtain ⟨rest, hr, hd⟩ := checkErrorE_some h
  rcases hd with ⟨he, hm⟩ | ⟨he, hm⟩ | ⟨he, hm⟩ | ⟨he, hm⟩ | ⟨he, hm⟩ <;>
    first
      | exact absurd he (by decide)
      | (obtain ⟨ds, t, h1, h2, h3, h4⟩ := matchErrTail_true hm
         exact ⟨ds, t, h1, h2, h3, by rw [hr, h4]; simp⟩)

lemma errLine_of_checkError_LOC {reply : List Char}
    (h : checkErrorE reply = some PyError.permissionError) :
    errLineMatch errTailLOC reply := by
  obtain ⟨rest, hr, hd⟩ := checkErrorE_some h
  rcases hd with ⟨he, hm⟩ | ⟨he, hm⟩ | ⟨he, hm⟩ | ⟨he, hm⟩ | ⟨he, hm⟩ <;>
    first
      | exact absurd he (by decide)
      | (obtain ⟨ds, t, h1, h2, h3, h4⟩ := matchErrTail_true hm
         exact ⟨ds, t, h1, h2, h3, by rw [hr, h4]; simp⟩)

/-- C1: the claim says the Access Serializer's busy flag is released on
every exit path of `_command`, including when reply decoding raises a
structured failure, so a later exchange never times out merely because an
earlier one failed.  The code releases the flag only on the successful
return path: decoding `#BD:00,CMD:ERR` raises `UnknownCommandError` and
leaves `busy = true`, and a subsequent exchange then fails with `Timeout`
(5-second budget exceeded) without writing anything. -/
theorem c1_busy_flag_leak :
    commandExchange 0 (fun _ : Nat => (0 : ℚ)) ⟨false, true⟩ 0
        ['M', 'O', 'N'] ['B', 'D', 'N', 'A', 'M', 'E'] Option.none
        Option.none Option.none ("#BD:00,CMD:ERR\r\n".toList) =
      some ⟨Except.error PyError.unknownCommand, true,
        ["$BD:0,CMD:MON,PAR:BDNAME\r\n".toList]⟩ ∧
    commandExchange 1 (fun i : Nat => (6 * i : ℚ)) ⟨true, true⟩ 0
        ['M', 'O', 'N'] ['B', 'D', 'N', 'A', 'M', 'E'] Option.none
        Option.none Option.none ("#BD:00,CMD:OK,VAL:CAEN\r\n".toList) =
      some ⟨Except.error PyError.timeoutError, true, []⟩ := by
  constructor
  · decide
  · have h1 : spinWait (fun i : Nat => (6 * i : ℚ)) true 1 = some false := by
      simp [spinWait, spinLoop]
      norm_num
    simp [commandExchange, h1]

/-- C2: the claim says the alarm-status read returns a raw bitmask value
and succeeds for every reply integer with zero, one, or several of the
seven named alarm bits set.  The code wraps the integer in a plain Python
`Enum`, whose by-value lookup accepts only exact member values: single-bit
values and zero succeed, but a combined bitmask such as 3
(`CHANNEL_0_ALARM | CHANNEL_1_ALARM`) raises `ValueError`. -/
theorem c2_alarm_enum_rejects_bitmask :
    alarmStatusOfReply ("#BD:00,CMD:OK,VAL:3\r\n".toList) =
      Except.error PyError.valueError ∧
    alarmStatusOfReply ("#BD:00,CMD:OK,VAL:0\r\n".toList) =
      Except.ok AlarmStatus.NO_ALARM ∧
    alarmStatusOfReply ("#BD:00,CMD:OK,VAL:4\r\n".toList) =
      Except.ok AlarmStatus.CHANNEL_2_ALARM ∧
    alarmStatusOfReply ("#BD:00,CMD:OK,VAL:64\r\n".toList) =
      Except.ok AlarmStatus.BOARD_HV_CLOCK_FAIL := by
  decide

/-- C4: an exchange requested while the busy flag is set and never clears
fails with a `Timeout` error once some poll of the wall clock exceeds the
5-second acquisition budget, the flag stays as it was, and no write is
issued to the transport. -/
theorem c4_timeout_no_write (fuel : Nat) (clock : Nat → ℚ) (st : CaenState)
    (module : Nat) (cmd par : List Char) (channel : Option Nat)
    (value : Option PyScalar) (ty : Option PyType) (reply : List Char)
    (hbusy : st.busy = true)
    (hclock : ∃ j, 1 ≤ j ∧ j < 1 + fuel ∧ clock j - clock 0 > 5) :
    commandExchange fuel clock st module cmd par channel value ty reply =
      some ⟨Except.error PyError.timeoutError, true, []⟩ := by
  simp [commandExchange, spinWait, hbusy,
    spinLoop_timeout clock (clock 0) fuel 1 hclock]

/-- Witness for C4 at a concrete clock trace and exchange. -/
theorem c4_timeout_no_write_witness :
    ((⟨true, true⟩ : CaenState).busy = true ∧
      (∃ j, 1 ≤ j ∧ j < 1 + 2 ∧
        (fun i : Nat => (6 * i : ℚ)) j - (fun i : Nat => (6 * i : ℚ)) 0 > 5)) ∧
    commandExchange 2 (fun i : Nat => (6 * i : ℚ)) ⟨true, true⟩ 0
        ['M', 'O', 'N'] ['B', 'D', 'S', 'N', 'U', 'M'] Option.none
        Option.none Option.none [] =
      some ⟨Except.error PyError.timeoutError, true, []⟩ :=
  ⟨⟨rfl, ⟨1, by norm_num⟩⟩,
    c4_timeout_no_write 2 _ _ 0 _ _ _ _ _ _ rfl ⟨1, by norm_num⟩⟩

/-- C5: for every module id in `[0, 99]`, operation `MON` or `SET`,
parameter mnemonic, optional channel in `[0, 3]` and optional value, all
free of the delimiter characters, the encoder produces the documented line
`$BD:<module_id>,CMD:<operation>[,CH:<channel>],PAR:<parameter>[,VAL:<value>]`
with CRLF terminator and fixed field order, omitting the CH and VAL fields
exactly when absent, and matching the line against the documented grammar
recovers the same field values. -/
theorem c5_encoder_roundtrip (module : Nat) (cmd : List Char)
    (channel : Option Nat) (par : List Char) (value : Option (List Char))
    (hmod : module ≤ 99)
    (hcmd : cmd = ['M', 'O', 'N'] ∨ cmd = ['S', 'E', 'T'])
    (hch : ∀ c ∈ channel, c ≤ 3)
    (hpar : delimFree par)
    (hval : ∀ w ∈ value, delimFree w) :
    parseCommandLine (encodeCommand module cmd channel par value) =
      some ⟨module, cmd, channel, par, value⟩ := by
  apply encode_roundtrip_aux
  · rcases hcmd with rfl | rfl <;> decide
  · exact delimFree_comma hpar
  · exact fun w hw => delimFree_comma (hval w hw)

/-- Witness for C5 at a concrete command. -/
theorem c5_encoder_roundtrip_witness :
    ((2 : Nat) ≤ 99 ∧
      ((['M', 'O', 'N'] : List Char) = ['M', 'O', 'N'] ∨
        (['M', 'O', 'N'] : List Char) = ['S', 'E', 'T']) ∧
      (∀ c ∈ (some 1 : Option Nat), c ≤ 3) ∧
      delimFree ['V', 'S', 'E', 'T'] ∧
      (∀ w ∈ (some ['1', '2', '.', '5'] : Option (List Char)), delimFree w)) ∧
    parseCommandLine (encodeCommand 2 ['M', 'O', 'N'] (some 1)
        ['V', 'S', 'E', 'T'] (some ['1', '2', '.', '5'])) =
      some ⟨2, ['M', 'O', 'N'], some 1, ['V', 'S', 'E', 'T'],
        some ['1', '2', '.', '5']⟩ :=
  ⟨⟨by decide, Or.inl rfl,
    by intro c hc; simp at hc; subst hc; decide,
    by decide,
    by intro w hw; simp at hw; subst hw; decide⟩,
    c5_encoder_roundtrip 2 _ _ _ _ (by decide) (Or.inl rfl)
      (by intro c hc; simp at hc; subst hc; decide)
      (by decide)
      (by intro w hw; simp at hw; subst hw; decide)⟩

/-- C6: the channel-status decode scans the non-`OFF` statuses in reverse
declaration order (`NO_CALIBRATION` first) and returns the first status
whose bit `value - 1` is set, returning `OFF` when none is; in particular
input 0 yields `OFF`, and input 136 (bits of `OVER_CURRENT` and `TRIPPED`
both set) yields `TRIPPED`. -/
theorem c6_channel_status_priority :
    (∀ n : Nat, channelStatusParseState n = parseStateSpec n) ∧
    channelStatusParseState 0 = ChannelStatus.OFF ∧
    channelStatusParseState 136 = ChannelStatus.TRIPPED := by
  refine ⟨?_, by decide, by decide⟩
  intro n
  unfold channelStatusParseState parseStateSpec
  rw [parseStateLoop_eq_find, find?_filter_eq]

/-- C3 (amended): error classification runs before success parsing, with
the fixed priority `CMD:ERR`, `CH:ERR`, `PAR:ERR`, `VAL:ERR`, `LOC:ERR`
mapping to UnknownCommand, ChannelError, ParameterError, ValueError and
PermissionDenied, each pattern anchored at the very start of the raw line
(no leading-whitespace trimming is applied to error classification — only
the success pattern is matched on the lstripped line) and at the CRLF
terminator: a reply raises one of the five errors exactly when it matches
the corresponding anchored pattern. -/
theorem c3_error_classification (reply : List Char) (ty : Option PyType) :
    (errLineMatch errTailCMD reply →
      parseReply reply ty = Except.error PyError.unknownCommand) ∧
    (errLineMatch errTailCH reply →
      parseReply reply ty = Except.error PyError.channelError) ∧
    (errLineMatch errTailPAR reply →
      parseReply reply ty = Except.error PyError.parameterError) ∧
    (errLineMatch errTailVAL reply →
      parseReply reply ty = Except.error PyError.valueError) ∧
    (errLineMatch errTailLOC reply →
      parseReply reply ty = Except.error PyError.permissionError) ∧
    (parseReply reply ty = Except.error PyError.unknownCommand →
      errLineMatch errTailCMD reply) ∧
    (parseReply reply ty = Except.error PyError.channelError →
      errLineMatch errTailCH reply) ∧
    (parseReply reply ty = Except.error PyError.parameterError →
      errLineMatch errTailPAR reply) ∧
    (parseReply reply ty = Except.error PyError.valueError →
      errLineMatch errTailVAL reply) ∧
    (parseReply reply ty = Except.error PyError.permissionError →
      errLineMatch errTailLOC reply) := by
  refine ⟨?_, ?_, ?_, ?_, ?_, ?_, ?_, ?_, ?_, ?_⟩
  · exact fun h => parseReply_of_checkError ty (checkErrorE_errCMD h)
  · exact fun h => parseReply_of_checkError ty (checkErrorE_errCH h)
  · exact fun h => parseReply_of_checkError ty (checkErrorE_errPAR h)
  · exact fun h => parseReply_of_checkError ty (checkErrorE_errVAL h)
  · exact fun h => parseReply_of_checkError ty (checkErrorE_errLOC h)
  · exact fun h =>
      errLine_of_checkError_CMD (checkError_of_parseReply (by decide) h)
  · exact fun h =>
      errLine_of_checkError_CH (checkError_of_parseReply (by decide) h)
  · exact fun h =>
      errLine_of_checkError_PAR (checkError_of_parseReply (by decide) h)
  · exact fun h =>
      errLine_of_checkError_VAL (checkError_of_parseReply (by decide) h)
  · exact fun h =>
      errLine_of_checkError_LOC (checkError_of_parseReply (by decide) h)

/-- Witness for C3 at the concrete reply `#BD:02,PAR:ERR\r\n`. -/
theorem c3_error_classification_witness :
    errLineMatch errTailPAR ("#BD:02,PAR:ERR\r\n".toList) ∧
    parseReply ("#BD:02,PAR:ERR\r\n".toList) Option.none =
      Except.error PyError.parameterError :=
  ⟨⟨['0', '2'], [], by decide, by decide, Or.inl rfl, by decide⟩,
    (c3_error_classification _ Option.none).2.2.1
      ⟨['0', '2'], [], by decide, by decide, Or.inl rfl, by decide⟩⟩

/-- Counterexample to C3 as stated: the error patterns are matched on the
raw reply with no leading-whitespace trimming, so a `PAR:ERR` frame with
one leading space is not classified as ParameterError (it decodes to the
"no value" result), while the same frame without the space is; trimming,
as the claim describes it, would have classified both. -/
theorem c3_no_whitespace_trimming :
    parseReply (" #BD:02,PAR:ERR\r\n".toList) Option.none =
      Except.ok Option.none ∧
    parseReply ("#BD:02,PAR:ERR\r\n".toList) Option.none =
      Except.error PyError.parameterError ∧
    pyLstrip (" #BD:02,PAR:ERR\r\n".toList) = "#BD:02,PAR:ERR\r\n".toList := by
  decide

/-- C7: a reply matching the success pattern
`#BD:<2-digit id>,CMD:OK,VAL:<payload>` is converted to the requested type,
a conversion failure yields InvalidReply, and with no requested type the
raw payload string is returned; decoding `#BD:02,CMD:OK,VAL:123.4\r\n` with
expected type float yields 123.4 and with expected type int yields
InvalidReply. -/
theorem c7_success_payload_conversion :
    (∀ (reply payload : List Char) (t : PyType),
      checkErrorE reply = Option.none →
      matchSuccess (pyLstrip reply) = some payload →
      (∀ v, pyTypeConvert t payload = some v →
        parseReply reply (some t) = Except.ok (some v)) ∧
      (pyTypeConvert t payload = Option.none →
        parseReply reply (some t) = Except.error PyError.invalidReply) ∧
      parseReply reply Option.none =
        Except.ok (some (PyValue.strV payload))) ∧
    parseReply ("#BD:02,CMD:OK,VAL:123.4\r\n".toList) (some PyType.floatT) =
      Except.ok (some (PyValue.floatV (1234 / 10))) ∧
    parseReply ("#BD:02,CMD:OK,VAL:123.4\r\n".toList) (some PyType.intT) =
      Except.error PyError.invalidReply := by
  refine ⟨?_, ?_, by decide⟩
  · intro reply payload t h1 h2
    refine ⟨?_, ?_, ?_⟩
    · intro v hv
      unfold parseReply
      simp only [h1, h2, hv]
    · intro hv
      unfold parseReply
      simp only [h1, h2, hv]
    · unfold parseReply
      simp only [h1, h2]
  · have hconv : pyTypeConvert PyType.floatT
        ('1' :: '2' :: '3' :: '.' :: '4' :: []) =
        some (PyValue.floatV (1234 / 10)) := by
      unfold pyTypeConvert pyFloat
      rw [show pyStrip ('1' :: '2' :: '3' :: '.' :: '4' :: []) =
        '1' :: '2' :: '3' :: '.' :: '4' :: [] from by decide]
      rw [show pyFloatCore ('1' :: '2' :: '3' :: '.' :: '4' :: []) =
        pyFloatMag ('1' :: '2' :: '3' :: '.' :: '4' :: []) from rfl]
      simp only [pyFloatMag]
      rw [show ('1' :: '2' :: '3' :: '.' :: '4' ::
        ([] : List Char)).takeWhile Char.isDigit = ['1', '2', '3'] from by decide]
      norm_num
      refine ⟨by decide, ?_⟩
      rw [show charsToNatAux 0 ['1', '2', '3'] = some 123 from by decide,
        show charsToNatAux 0 ['4'] = some 4 from by decide]
      norm_num
    have h1 : checkErrorE ("#BD:02,CMD:OK,VAL:123.4\r\n".toList) =
        Option.none := by decide
    have h2 : matchSuccess (pyLstrip ("#BD:02,CMD:OK,VAL:123.4\r\n".toList)) =
        some ('1' :: '2' :: '3' :: '.' :: '4' :: []) := by decide
    unfold parseReply
    simp only [h1, h2, hconv]

/-- Witness for C7 at the concrete success reply. -/
theorem c7_success_payload_conversion_witness :
    (checkErrorE ("#BD:02,CMD:OK,VAL:123.4\r\n".toList) = Option.none ∧
      matchSuccess (pyLstrip ("#BD:02,CMD:OK,VAL:123.4\r\n".toList)) =
        some ('1' :: '2' :: '3' :: '.' :: '4' :: [])) ∧
    parseReply ("#BD:02,CMD:OK,VAL:123.4\r\n".toList) Option.none =
      Except.ok (some (PyValue.strV ('1' :: '2' :: '3' :: '.' :: '4' :: []))) :=
  ⟨⟨by decide, by decide⟩,
    (c7_success_payload_conversion.1 _ _ PyType.intT (by decide)
      (by decide)).2.2⟩

/-- C8 (amended): the target-voltage and current-limit setters format the
written value with exactly one decimal digit (`"{:.1f}".format`), while the
ramp-up and ramp-down rate setters insert the value via its natural string
representation with no fixed-point formatting; in all four cases the value
lands in the VAL field of the encoded line. -/
theorem c8_value_formatting :
    (∀ (module ch : Nat) (v : ℚ),
      parseCommandLine (voltageSetLine module ch v) =
        some ⟨module, ['S', 'E', 'T'], some ch, ['V', 'S', 'E', 'T'],
          some (formatFixed1 v)⟩ ∧
      hasOneDecimalB (formatFixed1 v) = true) ∧
    (∀ (module ch : Nat) (cur : ℚ),
      parseCommandLine (currentLimitSetLine module ch cur) =
        some ⟨module, ['S', 'E', 'T'], some ch, ['I', 'S', 'E', 'T'],
          some (formatFixed1 cur)⟩ ∧
      hasOneDecimalB (formatFixed1 cur) = true) ∧
    (∀ (module ch : Nat) (rate : PyScalar), delimFree (pyScalarStr rate) →
      parseCommandLine (rampUpSetLine module ch rate) =
        some ⟨module, ['S', 'E', 'T'], some ch, ['R', 'U', 'P'],
          some (pyScalarStr rate)⟩ ∧
      parseCommandLine (rampDownSetLine module ch rate) =
        some ⟨module, ['S', 'E', 'T'], some ch, ['R', 'D', 'W'],
          some (pyScalarStr rate)⟩) := by
  refine ⟨?_, ?_, ?_⟩
  · intro module ch v
    refine ⟨?_, formatFixed1_hasOneDecimal v⟩
    unfold voltageSetLine
    apply encode_roundtrip_aux
    · decide
    · decide
    · intro w hw
      simp only [Option.mem_def, Option.some.injEq] at hw
      subst hw
      exact delimFree_comma (formatFixed1_delimFree v)
  · intro module ch cur
    refine ⟨?_, formatFixed1_hasOneDecimal cur⟩
    unfold currentLimitSetLine
    apply encode_roundtrip_aux
    · decide
    · decide
    · intro w hw
      simp only [Option.mem_def, Option.some.injEq] at hw
      subst hw
      exact delimFree_comma (formatFixed1_delimFree cur)
  · intro module ch rate hrate
    constructor
    · unfold rampUpSetLine
      apply encode_roundtrip_aux
      · decide
      · decide
      · intro w hw
        simp only [Option.mem_def, Option.some.injEq] at hw
        subst hw
        exact delimFree_comma hrate
    · unfold rampDownSetLine
      apply encode_roundtrip_aux
      · decide
      · decide
      · intro w hw
        simp only [Option.mem_def, Option.some.injEq] at hw
        subst hw
        exact delimFree_comma hrate

/-- Witness for C8 at a concrete ramp-rate write. -/
theorem c8_value_formatting_witness :
    delimFree (pyScalarStr (PyScalar.intv 5)) ∧
    parseCommandLine (rampUpSetLine 1 2 (PyScalar.intv 5)) =
      some ⟨1, ['S', 'E', 'T'], some 2, ['R', 'U', 'P'],
        some (pyScalarStr (PyScalar.intv 5))⟩ :=
  ⟨by decide,
    (c8_value_formatting.2.2 1 2 (PyScalar.intv 5) (by decide)).1⟩

/-- Counterexample to C8 as stated: the ramp-up rate setter performs no
fixed-point formatting — writing the integer rate 5 puts the bare string
`5` into the VAL field, which does not have exactly one decimal digit. -/
theorem c8_ramp_rate_not_fixed_point :
    parseCommandLine (rampUpSetLine 0 0 (PyScalar.intv 5)) =
      some ⟨0, ['S', 'E', 'T'], some 0, ['R', 'U', 'P'], some ['5']⟩ ∧
    hasOneDecimalB ['5'] = false := by
  decide

/-- C9: a polarity read whose decoded payload string is `+` returns the
integer 1, and one whose payload is `-` returns -1 (the getter parses the
payload with the digit 1 appended as a signed integer). -/
theorem c9_polarity_sign_parse (reply : List Char) :
    (parseReply reply Option.none = Except.ok (some (PyValue.strV ['+'])) →
      polarityOfReply reply = Except.ok 1) ∧
    (parseReply reply Option.none = Except.ok (some (PyValue.strV ['-'])) →
      polarityOfReply reply = Except.ok (-1)) := by
  constructor <;>
    (intro h
     unfold polarityOfReply
     simp only [h]
     decide)

/-- Witness for C9 at concrete polarity replies. -/
theorem c9_polarity_sign_parse_witness :
    (parseReply ("#BD:00,CMD:OK,VAL:+\r\n".toList) Option.none =
      Except.ok (some (PyValue.strV ['+']))) ∧
    polarityOfReply ("#BD:00,CMD:OK,VAL:+\r\n".toList) = Except.ok 1 :=
  ⟨by decide, (c9_polarity_sign_parse _).1 (by decide)⟩

/-- C10: the bus-termination read returns true exactly when the decoded
payload string equals `ON`; any other decoded result — including the
strings `on` and `OFF` and the no-value result of a reply without a VAL
payload — yields false. -/
theorem c10_bus_termination_on (reply : List Char) :
    (parseReply reply Option.none = Except.ok (some (PyValue.strV ['O', 'N'])) →
      busTerminationOfReply reply = Except.ok true) ∧
    (∀ v, parseReply reply Option.none = Except.ok v →
      v ≠ some (PyValue.strV ['O', 'N']) →
      busTerminationOfReply reply = Except.ok false) ∧
    busTerminationOfReply ("#BD:00,CMD:OK,VAL:on\r\n".toList) =
      Except.ok false ∧
    busTerminationOfReply ("#BD:00,CMD:OK,VAL:OFF\r\n".toList) =
      Except.ok false ∧
    busTerminationOfReply ("#BD:00,CMD:OK\r\n".toList) = Except.ok false := by
  refine ⟨?_, ?_, by decide, by decide, by decide⟩
  · intro h
    unfold busTerminationOfReply
    simp only [h]
    decide
  · intro v h hne
    unfold busTerminationOfReply
    simp only [h]
    rw [beq_eq_false_iff_ne.mpr hne]

/-- Witness for C10 at a concrete `ON` reply. -/
theorem c10_bus_termination_on_witness :
    (parseReply ("#BD:00,CMD:OK,VAL:ON\r\n".toList) Option.none =
      Except.ok (some (PyValue.strV ['O', 'N']))) ∧
    busTerminationOfReply ("#BD:00,CMD:OK,VAL:ON\r\n".toList) =
      Except.ok true :=
  ⟨by decide, (c10_bus_termination_on _).1 (by decide)⟩
